import Mathlib

/-!
Verification of the chaincode install workflow (peer/chaincode/install.go).

The Go workflow is embedded shallowly: every external collaborator
(file reader, signing identity, proto codecs, package codec, existence
probe, transport endpoint) is a field of an `Env` record, and each Go
function becomes a Lean function from `Env` (and the `Installer` state)
to an `Outcome` paired with a trace of collaborator-call events.
`Outcome.crash` models a Go runtime panic (out-of-range slice index);
`Outcome.fail` carries a constructor per `return err` site of the source.
-/

namespace Fabric

/-- Byte strings, modelled as lists of naturals. -/
abbrev Bytes := List Nat

/-- Encoding of a Go string literal as bytes (for `[]byte("...")`). -/
def strToBytes (s : String) : Bytes := s.toList.map Char.toNat

/-- pb.ChaincodeID: chaincode identity carried in a spec. -/
structure ChaincodeID where
  Name : String
  Version : String
deriving DecidableEq, Repr

/-- pb.ChaincodeInput: the invocation arguments. -/
structure ChaincodeInput where
  Args : List Bytes
deriving DecidableEq, Repr

/-- pb.ChaincodeSpec (the fields the install workflow touches). -/
structure ChaincodeSpecPB where
  ChaincodeId : ChaincodeID
  Input : ChaincodeInput
deriving DecidableEq, Repr

/-- pb.ChaincodeDeploymentSpec: the legacy deployment descriptor. -/
structure ChaincodeDeploymentSpec where
  ChaincodeSpec : ChaincodeSpecPB
  CodePackage : Bytes
deriving DecidableEq, Repr

/-- cb.Envelope: a signed wrapper around a descriptor; contents opaque here. -/
structure Envelope where
  Payload : Bytes
deriving DecidableEq, Repr

/-- The object returned by ccpack.GetPackageObject: a Go interface value that
may hold a (possibly nil) deployment-spec pointer, a (possibly nil) envelope
pointer, or some other message. `none` models a typed nil pointer. -/
inductive PackageObject where
  | cds (c : Option ChaincodeDeploymentSpec)
  | envelope (e : Option Envelope)
  | other
deriving DecidableEq, Repr

/-- lb.InstallChaincodeArgs for the new-lifecycle dialect. -/
structure InstallChaincodeArgs where
  Name : String
  Version : String
  ChaincodeInstallPackage : Bytes
deriving DecidableEq, Repr

/-- pb.ChaincodeInvocationSpec. -/
structure ChaincodeInvocationSpec where
  ChaincodeSpec : ChaincodeSpecPB
deriving DecidableEq, Repr

/-- lb.InstallChaincodeResult: the lifecycle verdict payload. -/
structure InstallChaincodeResult where
  Hash : Bytes
deriving DecidableEq, Repr

/-- pb.Response: the inner result object of a proposal response. -/
structure Response where
  Status : Int
  Message : String
  Payload : Bytes
deriving DecidableEq, Repr

/-- pb.ProposalResponse; the inner `Response` pointer may be nil. -/
structure ProposalResponse where
  Response : Option Response
deriving DecidableEq, Repr

/-- Proposals are opaque values produced by protoutil collaborators. -/
abbrev Proposal := Bytes

/-- Signed proposals are opaque values produced by protoutil.GetSignedProposal. -/
abbrev SignedProposal := Bytes

/-- InstallInput: the per-invocation caller input record. -/
structure InstallInput where
  Name : String
  Version : String
  Language : String
  PackageFile : String
  Path : String
  NewLifecycle : Bool
deriving DecidableEq, Repr

/-- cb.Status_SUCCESS, the success sentinel status code. -/
def Status_SUCCESS : Int := 200

/-- Modelled from the spec: `common.UndefinedParamValue`, the default value of
an unset string flag (defined outside this file's source); it is the empty
string. -/
def UndefinedParamValue : String := ""

/-- Modelled from the spec: the well-known reserved target identity of the
new-lifecycle system chaincode (`newLifecycleName`, defined outside this
file's source). Its concrete value is irrelevant to the claims. -/
def newLifecycleName : String := "+lifecycle"

/-- One constructor per `return err` site of the source. Each carries the
data the Go error message interpolates. -/
inductive Err where
  | packageFileRequired
  | nameRequired
  | versionRequired
  | pathNotSupported
  | readPackageFailed (path : String) (e : String)
  | marshalInstallArgsFailed (e : String)
  | createProposalFailed (e : String)
  | signedProposalFailed (e : String)
  | endorseFailed (e : String)
  | nilProposalResponse
  | nilResponse
  | installRejected (status : Int) (message : String)
  | unmarshalResultFailed (e : String)
  | mustSupplyParams
  | alreadyExists (name : String) (version : String)
  | chaincodeSpecFailed (e : String)
  | deploymentSpecFailed (name : String) (e : String)
  | fileReadFailed (e : String)
  | ccPackageFailed (e : String)
  | invalidPackage
  | extractSignedFailed (e : String)
  | extractCDSFailed (e : String)
  | nameMismatch (given : String) (embedded : String)
  | versionMismatch (given : String) (embedded : String)
  | serializeIdentityFailed (id : String) (e : String)
  | createInstallProposalFailed (e : String)
deriving DecidableEq, Repr

/-- Result of running a piece of the workflow. `crash` models a Go runtime
panic, which is distinct from an error return. -/
inductive Outcome (α : Type) where
  | ok (a : α)
  | fail (e : Err)
  | crash (msg : String)
deriving DecidableEq, Repr

/-- Collaborator-call events recorded while the workflow runs. -/
inductive Event where
  | readFile (path : String)
  | serialize
  | processProposal (idx : Nat)
  | unmarshalICR
  | extractSigned
  | packageExists
deriving DecidableEq, Repr

/-- An endorser client: ProcessProposal may fail (transport error) or return
a possibly-nil proposal response. -/
abbrev EndorserClient := SignedProposal → Except String (Option ProposalResponse)

/-- The injected collaborators: Reader, Signer, proto codecs, package codec,
existence probe and deployment-spec builder. -/
structure Env where
  readFile : String → Except String Bytes
  serializeSigner : Except String Bytes
  signerIdentifier : String
  getCCPackage : Bytes → Except String PackageObject
  extractSignedCCDepSpec : Envelope → Except String Bytes
  getChaincodeDeploymentSpecFromBytes : Bytes → Except String ChaincodeDeploymentSpec
  marshalInstallChaincodeArgs : InstallChaincodeArgs → Except String Bytes
  createProposalFromCIS : ChaincodeInvocationSpec → Bytes → Except String Proposal
  createInstallProposalFromCDS : PackageObject → Bytes → Except String Proposal
  getSignedProposal : Proposal → Except String SignedProposal
  chaincodePackageExists : String → String → Bool × Option String
  getChaincodeSpec : Except String ChaincodeSpecPB
  getChaincodeDeploymentSpecBuild : ChaincodeSpecPB → Except String ChaincodeDeploymentSpec
  unmarshalInstallChaincodeResult : Bytes → Except String InstallChaincodeResult

/-- Installer: the endorser clients and the per-invocation input. -/
structure Installer where
  EndorserClients : List EndorserClient
  Input : InstallInput

/-- Installer.validateInput: `none` means valid, `some e` the validation
error, in source order. -/
def validateInput (input : InstallInput) : Option Err :=
  if input.PackageFile = "" then some .packageFileRequired
  else if input.Name = "" then some .nameRequired
  else if input.Version = "" then some .versionRequired
  else if input.Path ≠ "" then some .pathNotSupported
  else none

/-- Installer.createNewLifecycleInstallProposal. -/
def createNewLifecycleInstallProposal (env : Env) (name version : String)
    (pkgBytes creatorBytes : Bytes) : Outcome Proposal :=
  let installChaincodeArgs : InstallChaincodeArgs :=
    { Name := name, Version := version, ChaincodeInstallPackage := pkgBytes }
  match env.marshalInstallChaincodeArgs installChaincodeArgs with
  | .error e => .fail (.marshalInstallArgsFailed e)
  | .ok installChaincodeArgsBytes =>
    let ccInput : ChaincodeInput :=
      { Args := [strToBytes ("InstallChaincode"), installChaincodeArgsBytes] }
    let cis : ChaincodeInvocationSpec :=
      { ChaincodeSpec :=
          { ChaincodeId := { Name := newLifecycleName, Version := "" }
            Input := ccInput } }
    match env.createProposalFromCIS cis creatorBytes with
    | .error e => .fail (.createProposalFailed e)
    | .ok proposal => .ok proposal

/-- Installer.submitInstallProposal. Indexing `EndorserClients[0]` on an
empty slice is a Go runtime panic, modelled as `crash`. -/
def submitInstallProposal (env : Env) (i : Installer)
    (signedProposal : SignedProposal) : Outcome Unit × List Event :=
  match i.EndorserClients with
  | [] => (.crash ("index out of range"), [])
  | client :: _ =>
    match client signedProposal with
    | .error e => (.fail (.endorseFailed e), [.processProposal 0])
    | .ok none => (.fail .nilProposalResponse, [.processProposal 0])
    | .ok (some proposalResponse) =>
      match proposalResponse.Response with
      | none => (.fail .nilResponse, [.processProposal 0])
      | some response =>
        if response.Status ≠ Status_SUCCESS then
          (.fail (.installRejected response.Status response.Message),
            [.processProposal 0])
        else if i.Input.NewLifecycle then
          match env.unmarshalInstallChaincodeResult response.Payload with
          | .error e =>
            (.fail (.unmarshalResultFailed e), [.processProposal 0, .unmarshalICR])
          | .ok _ => (.ok (), [.processProposal 0, .unmarshalICR])
        else (.ok (), [.processProposal 0])

/-- The value of `serializedSigner` after the Serialize call of the
lifecycle path: the serialized bytes on success, the zero value (nil) on
failure — the source constructs a wrapped error there but does not return
it. -/
def serializedOrNil (r : Except String Bytes) : Bytes :=
  match r with
  | .ok b => b
  | .error _ => []

/-- Installer.install (new-lifecycle dialect). The source constructs a
wrapped error when Signer.Serialize fails but does not return it, so on
failure the zero value (nil bytes) is used and the flow continues. -/
def install (env : Env) (i : Installer) : Outcome Unit × List Event :=
  match validateInput i.Input with
  | some e => (.fail e, [])
  | none =>
    match env.readFile i.Input.PackageFile with
    | .error e =>
      (.fail (.readPackageFailed i.Input.PackageFile e),
        [.readFile i.Input.PackageFile])
    | .ok pkgBytes =>
      let serializedSigner : Bytes := serializedOrNil env.serializeSigner
      let tr0 : List Event := [.readFile i.Input.PackageFile, .serialize]
      match createNewLifecycleInstallProposal env i.Input.Name i.Input.Version
          pkgBytes serializedSigner with
      | .fail e => (.fail e, tr0)
      | .crash m => (.crash m, tr0)
      | .ok proposal =>
        match env.getSignedProposal proposal with
        | .error e => (.fail (.signedProposalFailed e), tr0)
        | .ok signedProposal =>
          let res := submitInstallProposal env i signedProposal
          (res.1, tr0 ++ res.2)

/-- getPackageFromFile: read the package file, parse it, and extract the
deployment spec, trying the descriptor shape first and the envelope shape
second. -/
def getPackageFromFile (env : Env) (ccPkgFile : String) :
    Outcome (PackageObject × ChaincodeDeploymentSpec) × List Event :=
  match env.readFile ccPkgFile with
  | .error e => (.fail (.fileReadFailed e), [.readFile ccPkgFile])
  | .ok ccPkgBytes =>
    match env.getCCPackage ccPkgBytes with
    | .error e => (.fail (.ccPackageFailed e), [.readFile ccPkgFile])
    | .ok o =>
      match o with
      | .cds (some cds) => (.ok (o, cds), [.readFile ccPkgFile])
      | .envelope (some envPkg) =>
        match env.extractSignedCCDepSpec envPkg with
        | .error e =>
          (.fail (.extractSignedFailed e), [.readFile ccPkgFile, .extractSigned])
        | .ok sCDSBytes =>
          match env.getChaincodeDeploymentSpecFromBytes sCDSBytes with
          | .error e =>
            (.fail (.extractCDSFailed e), [.readFile ccPkgFile, .extractSigned])
          | .ok cds => (.ok (o, cds), [.readFile ccPkgFile, .extractSigned])
      | _ => (.fail .invalidPackage, [.readFile ccPkgFile])

/-- genChaincodeDeploymentSpec: the legacy synthesize path. The error result
of ChaincodePackageExists is discarded by the source (`existed, _ := ...`). -/
def genChaincodeDeploymentSpec (env : Env) (chaincodeName chaincodeVersion : String) :
    Outcome ChaincodeDeploymentSpec × List Event :=
  if (env.chaincodePackageExists chaincodeName chaincodeVersion).1 then
    (.fail (.alreadyExists chaincodeName chaincodeVersion), [.packageExists])
  else
    match env.getChaincodeSpec with
    | .error e => (.fail (.chaincodeSpecFailed e), [.packageExists])
    | .ok spec =>
      match env.getChaincodeDeploymentSpecBuild spec with
      | .error e => (.fail (.deploymentSpecFailed chaincodeName e), [.packageExists])
      | .ok cds => (.ok cds, [.packageExists])

/-- Installer.getLegacyChaincodePackageMessage. -/
def getLegacyChaincodePackageMessage (env : Env) (i : Installer) :
    Outcome PackageObject × List Event :=
  if i.Input.PackageFile = "" then
    if i.Input.Path = UndefinedParamValue ∨ i.Input.Version = UndefinedParamValue ∨
        i.Input.Name = UndefinedParamValue then
      (.fail .mustSupplyParams, [])
    else
      match genChaincodeDeploymentSpec env i.Input.Name i.Input.Version with
      | (.fail e, tr) => (.fail e, tr)
      | (.crash m, tr) => (.crash m, tr)
      | (.ok ccPkgMsg, tr) => (.ok (.cds (some ccPkgMsg)), tr)
  else
    match getPackageFromFile env i.Input.PackageFile with
    | (.fail e, tr) => (.fail e, tr)
    | (.crash m, tr) => (.crash m, tr)
    | (.ok (ccPkgMsg, cds), tr) =>
      let cName := cds.ChaincodeSpec.ChaincodeId.Name
      let cVersion := cds.ChaincodeSpec.ChaincodeId.Version
      if i.Input.Name ≠ "" ∧ i.Input.Name ≠ cName then
        (.fail (.nameMismatch i.Input.Name cName), tr)
      else if i.Input.Version ≠ "" ∧ i.Input.Version ≠ cVersion then
        (.fail (.versionMismatch i.Input.Version cVersion), tr)
      else (.ok ccPkgMsg, tr)

/-- Installer.createLegacyInstallProposal. Unlike the lifecycle path, a
Serialize failure is returned here. -/
def createLegacyInstallProposal (env : Env) (msg : PackageObject) :
    Outcome Proposal × List Event :=
  match env.serializeSigner with
  | .error e => (.fail (.serializeIdentityFailed env.signerIdentifier e), [.serialize])
  | .ok creator =>
    match env.createInstallProposalFromCDS msg creator with
    | .error e => (.fail (.createInstallProposalFailed e), [.serialize])
    | .ok prop => (.ok prop, [.serialize])

/-- Installer.installLegacy. -/
def installLegacy (env : Env) (i : Installer) : Outcome Unit × List Event :=
  match getLegacyChaincodePackageMessage env i with
  | (.fail e, tr) => (.fail e, tr)
  | (.crash m, tr) => (.crash m, tr)
  | (.ok ccPkgMsg, tr) =>
    match createLegacyInstallProposal env ccPkgMsg with
    | (.fail e, tr2) => (.fail e, tr ++ tr2)
    | (.crash m, tr2) => (.crash m, tr ++ tr2)
    | (.ok proposal, tr2) =>
      match env.getSignedProposal proposal with
      | .error e => (.fail (.signedProposalFailed e), tr ++ tr2)
      | .ok signedProposal =>
        let res := submitInstallProposal env i signedProposal
        (res.1, tr ++ tr2 ++ res.2)

/-- Installer.installChaincode: dialect dispatch. -/
def installChaincode (env : Env) (i : Installer) : Outcome Unit × List Event :=
  if i.Input.NewLifecycle then install env i else installLegacy env i

/-- True of the events that are collaborator network submissions. -/
def isProcessEvent (ev : Event) : Bool :=
  match ev with
  | .processProposal _ => true
  | _ => false

/-- Number of network submissions recorded in a trace. -/
def processCount (tr : List Event) : Nat := tr.countP isProcessEvent

/-- The invalid-package error family of the resolver: neither package shape
matched, or an envelope unwrap step failed. -/
def IsInvalidPackageError (e : Err) : Prop :=
  e = .invalidPackage ∨ (∃ s, e = .extractSignedFailed s) ∨
    ∃ s, e = .extractCDSFailed s

/-- A sample deployment descriptor for concrete evaluations. -/
def sampleCDS : ChaincodeDeploymentSpec :=
  { ChaincodeSpec :=
      { ChaincodeId := { Name := "mycc", Version := "1.0" }
        Input := { Args := [] } }
    CodePackage := [1, 2, 3] }

/-- An endorser client that accepts every proposal with a success verdict. -/
def okClient : EndorserClient := fun _ =>
  .ok (some { Response := some { Status := 200, Message := "", Payload := [7] } })

/-- A sample environment in which every collaborator succeeds. -/
def sampleEnv : Env :=
  { readFile := fun _ => .ok [9, 9]
    serializeSigner := .ok [1]
    signerIdentifier := "signer0"
    getCCPackage := fun _ => .ok (.cds (some sampleCDS))
    extractSignedCCDepSpec := fun _ => .ok [8]
    getChaincodeDeploymentSpecFromBytes := fun _ => .ok sampleCDS
    marshalInstallChaincodeArgs := fun _ => .ok [2]
    createProposalFromCIS := fun _ _ => .ok [3]
    createInstallProposalFromCDS := fun _ _ => .ok [3]
    getSignedProposal := fun _ => .ok [4]
    chaincodePackageExists := fun _ _ => (false, none)
    getChaincodeSpec := .ok sampleCDS.ChaincodeSpec
    getChaincodeDeploymentSpecBuild := fun _ => .ok sampleCDS
    unmarshalInstallChaincodeResult := fun _ => .ok { Hash := [5] } }

/-- A lifecycle-dialect input that passes validation. -/
def goodLifecycleInput : InstallInput :=
  { Name := "mycc", Version := "1.0", Language := "", PackageFile := "pkg.bin"
    Path := "", NewLifecycle := true }

/-- A lifecycle installer with one endorser client and valid input. -/
def goodLifecycleInstaller : Installer :=
  { EndorserClients := [okClient], Input := goodLifecycleInput }

/-- A lifecycle installer whose input is missing the package file. -/
def noPackageFileInstaller : Installer :=
  { EndorserClients := [okClient]
    Input := { goodLifecycleInput with PackageFile := "" } }

/-- The sample environment with a failing signer. -/
def failingSignerEnv : Env :=
  { sampleEnv with serializeSigner := .error ("serialize boom") }

/-- A proposal response with the given status, message and payload. -/
def respOf (st : Int) (m : String) (p : Bytes) : ProposalResponse :=
  { Response := some { Status := st, Message := m, Payload := p } }

/-- An endorser client that rejects every proposal with status 500. -/
def rejectingClient : EndorserClient := fun _ =>
  .ok (some (respOf 500 ("bad request") []))

/-- C1: under the LIFECYCLE dialect, an input with empty PackageFile, empty
Name, empty Version, or non-empty Path makes install fail with one of the
four validation errors, with an empty collaborator trace: the file reader
and the endorser client are never invoked. -/
theorem c1_lifecycle_validation_blocks_io (env : Env) (i : Installer)
    (hlc : i.Input.NewLifecycle = true)
    (hbad : i.Input.PackageFile = "" ∨ i.Input.Name = "" ∨
      i.Input.Version = "" ∨ i.Input.Path ≠ "") :
    (installChaincode env i).2 = [] ∧
      ∃ e, (installChaincode env i).1 = .fail e ∧
        (e = .packageFileRequired ∨ e = .nameRequired ∨
          e = .versionRequired ∨ e = .pathNotSupported) := by
  have hsome : ∃ e, validateInput i.Input = some e ∧
      (e = Err.packageFileRequired ∨ e = Err.nameRequired ∨
        e = Err.versionRequired ∨ e = Err.pathNotSupported) := by
    unfold validateInput
    by_cases h1 : i.Input.PackageFile = ""
    · exact ⟨.packageFileRequired, by simp [h1], Or.inl rfl⟩
    · by_cases h2 : i.Input.Name = ""
      · exact ⟨.nameRequired, by simp [h1, h2], Or.inr (Or.inl rfl)⟩
      · by_cases h3 : i.Input.Version = ""
        · exact ⟨.versionRequired, by simp [h1, h2, h3], Or.inr (Or.inr (Or.inl rfl))⟩
        · have h4 : i.Input.Path ≠ "" := by tauto
          exact ⟨.pathNotSupported, by simp [h1, h2, h3, h4],
            Or.inr (Or.inr (Or.inr rfl))⟩
  rcases hsome with ⟨e, he, hcases⟩
  have : installChaincode env i = (.fail e, []) := by
    simp [installChaincode, hlc, install, he]
  exact ⟨by rw [this], e, by rw [this], hcases⟩

/-- C1 witness: concrete evaluation at an input with an empty package file. -/
theorem c1_witness :
    (installChaincode sampleEnv noPackageFileInstaller).2 = [] ∧
      ∃ e, (installChaincode sampleEnv noPackageFileInstaller).1 = .fail e ∧
        (e = .packageFileRequired ∨ e = .nameRequired ∨
          e = .versionRequired ∨ e = .pathNotSupported) :=
  c1_lifecycle_validation_blocks_io sampleEnv noPackageFileInstaller rfl (Or.inl rfl)

/-- C2 counter-evidence: under the LIFECYCLE dialect, when Signer.Serialize
fails the install workflow still returns success — the source constructs the
wrapped serialization error but never returns it — even though the signer was
invoked. Under the LEGACY dialect the same failure is returned. -/
theorem c2_serialize_error_swallowed :
    (install failingSignerEnv goodLifecycleInstaller).1 = .ok () ∧
      Event.serialize ∈ (install failingSignerEnv goodLifecycleInstaller).2 ∧
      (installLegacy failingSignerEnv goodLifecycleInstaller).1 =
        .fail (.serializeIdentityFailed ("signer0") ("serialize boom")) := by
  refine ⟨rfl, by decide, rfl⟩

/-- C9: submitInstallProposal indexes the first endorser client without an
emptiness check: with no clients it crashes (Go runtime panic); with at least
one client it never crashes; and the workflow itself never establishes the
precondition — a validated input still crashes when the client list is
empty. -/
theorem c9_first_endorser_unchecked :
    (∀ (env : Env) (inp : InstallInput) (sp : SignedProposal),
      submitInstallProposal env { EndorserClients := [], Input := inp } sp =
        (.crash ("index out of range"), [])) ∧
    (∀ (env : Env) (inp : InstallInput) (sp : SignedProposal)
        (c : EndorserClient) (cs : List EndorserClient) (m : String),
      (submitInstallProposal env { EndorserClients := c :: cs, Input := inp } sp).1 ≠
        .crash m) ∧
    (∃ (env : Env) (i : Installer), validateInput i.Input = none ∧
      i.EndorserClients = [] ∧ ∃ m, (installChaincode env i).1 = .crash m) := by
  refine ⟨fun env inp sp => rfl, ?_, ?_⟩
  · intro env inp sp c cs m
    unfold submitInstallProposal
    rcases hc : c sp with e | opr
    · simp [hc]
    · rcases opr with _ | pr
      · simp [hc]
      · rcases hr : pr.Response with _ | r
        · simp [hc, hr]
        · by_cases hs : r.Status ≠ Status_SUCCESS
          · simp [hc, hr, hs]
          · by_cases hl : inp.NewLifecycle
            · rcases hu : env.unmarshalInstallChaincodeResult r.Payload with e2 | icr
              · simp [hc, hr, hs, hl, hu]
              · simp [hc, hr, hs, hl, hu]
            · simp [hc, hr, hs, hl]
  · exact ⟨sampleEnv, { EndorserClients := [], Input := goodLifecycleInput },
      rfl, rfl, "index out of range", rfl⟩

/-- C3: with a supplied package file that parses, a non-empty caller name
differing from the embedded name fails resolution with a name-mismatch error
carrying both strings; with the name check passing, a non-empty caller
version differing from the embedded version fails with a version-mismatch
error. Neither value overrides the other and the comparison is string
equality. -/
theorem c3_identity_mismatch_rejected (env : Env) (i : Installer)
    (o : PackageObject) (cds : ChaincodeDeploymentSpec) (tr : List Event)
    (hfile : i.Input.PackageFile ≠ "")
    (hpkg : getPackageFromFile env i.Input.PackageFile = (.ok (o, cds), tr)) :
    (i.Input.Name ≠ "" → i.Input.Name ≠ cds.ChaincodeSpec.ChaincodeId.Name →
      (getLegacyChaincodePackageMessage env i).1 =
        .fail (.nameMismatch i.Input.Name cds.ChaincodeSpec.ChaincodeId.Name)) ∧
    ((i.Input.Name = "" ∨ i.Input.Name = cds.ChaincodeSpec.ChaincodeId.Name) →
      i.Input.Version ≠ "" →
      i.Input.Version ≠ cds.ChaincodeSpec.ChaincodeId.Version →
      (getLegacyChaincodePackageMessage env i).1 =
        .fail (.versionMismatch i.Input.Version
          cds.ChaincodeSpec.ChaincodeId.Version)) := by
  constructor
  · intro hne hdiff
    simp [getLegacyChaincodePackageMessage, hfile, hpkg, hne, hdiff]
  · intro hname hvne hvdiff
    have hnm : ¬(i.Input.Name ≠ "" ∧ i.Input.Name ≠ cds.ChaincodeSpec.ChaincodeId.Name) := by
      rcases hname with h | h
      · simp [h]
      · simp [h]
    simp [getLegacyChaincodePackageMessage, hfile, hpkg, hnm, hvne, hvdiff]

/-- C3 witness: a concrete legacy input whose caller name differs from the
embedded name, and a concrete version mismatch. -/
theorem c3_witness :
    ("othercc" ≠ ("" : String)) ∧ ("othercc" ≠ ("mycc" : String)) ∧
      (getLegacyChaincodePackageMessage sampleEnv
        { EndorserClients := [okClient]
          Input := { goodLifecycleInput with Name := "othercc", NewLifecycle := false } }).1 =
        .fail (.nameMismatch ("othercc") ("mycc")) := by
  have h := c3_identity_mismatch_rejected sampleEnv
    { EndorserClients := [okClient]
      Input := { goodLifecycleInput with Name := "othercc", NewLifecycle := false } }
    (.cds (some sampleCDS)) sampleCDS [.readFile ("pkg.bin")]
    (by decide) rfl
  exact ⟨by decide, by decide, h.1 (by decide) (by decide)⟩

/-- C6: with a supplied package file that parses into a descriptor whose
embedded name and version equal the caller-supplied values, resolution
succeeds and returns the parsed package message unchanged. -/
theorem c6_legacy_matching_resolution_succeeds (env : Env) (i : Installer)
    (o : PackageObject) (cds : ChaincodeDeploymentSpec) (tr : List Event)
    (hfile : i.Input.PackageFile ≠ "")
    (hpkg : getPackageFromFile env i.Input.PackageFile = (.ok (o, cds), tr))
    (hname : i.Input.Name = cds.ChaincodeSpec.ChaincodeId.Name)
    (hver : i.Input.Version = cds.ChaincodeSpec.ChaincodeId.Version) :
    getLegacyChaincodePackageMessage env i = (.ok o, tr) := by
  have hnm : ¬(i.Input.Name ≠ "" ∧ i.Input.Name ≠ cds.ChaincodeSpec.ChaincodeId.Name) := by
    simp [hname]
  have hvm : ¬(i.Input.Version ≠ "" ∧
      i.Input.Version ≠ cds.ChaincodeSpec.ChaincodeId.Version) := by
    simp [hver]
  simp [getLegacyChaincodePackageMessage, hfile, hpkg, hnm, hvm]

/-- C6 witness: a concrete legacy input matching the embedded identity. -/
theorem c6_witness :
    getLegacyChaincodePackageMessage sampleEnv
        { EndorserClients := [okClient]
          Input := { goodLifecycleInput with NewLifecycle := false } } =
      (.ok (.cds (some sampleCDS)), [.readFile ("pkg.bin")]) :=
  c6_legacy_matching_resolution_succeeds sampleEnv
    { EndorserClients := [okClient]
      Input := { goodLifecycleInput with NewLifecycle := false } }
    (.cds (some sampleCDS)) sampleCDS [.readFile ("pkg.bin")]
    (by decide) rfl rfl rfl

/-- C10: the legacy synthesize pre-check fails with an already-exists error
exactly when the existence probe's boolean is true, whatever its error
component; a probe returning false together with an error is treated as not
installed and synthesis proceeds (succeeding when the builders succeed). -/
theorem c10_probe_error_discarded (env : Env) (n v : String) :
    ((genChaincodeDeploymentSpec env n v).1 = .fail (.alreadyExists n v) ↔
      (env.chaincodePackageExists n v).1 = true) ∧
    (∀ (e2 : String) (spec : ChaincodeSpecPB) (cds : ChaincodeDeploymentSpec),
      env.chaincodePackageExists n v = (false, some e2) →
      env.getChaincodeSpec = .ok spec →
      env.getChaincodeDeploymentSpecBuild spec = .ok cds →
      genChaincodeDeploymentSpec env n v = (.ok cds, [.packageExists])) := by
  constructor
  · by_cases hex : (env.chaincodePackageExists n v).1 = true
    · simp [genChaincodeDeploymentSpec, hex]
    · simp only [hex, iff_false]
      rcases hs : env.getChaincodeSpec with e | spec
      · simp [genChaincodeDeploymentSpec, hex, hs]
      · rcases hb : env.getChaincodeDeploymentSpecBuild spec with e | cds
        · simp [genChaincodeDeploymentSpec, hex, hs, hb]
        · simp [genChaincodeDeploymentSpec, hex, hs, hb]
  · intro e2 spec cds hprobe hs hb
    have hex : (env.chaincodePackageExists n v).1 = false := by rw [hprobe]
    simp [genChaincodeDeploymentSpec, hex, hs, hb]

/-- C10 witness: a probe that errors while reporting false does not block
synthesis. -/
theorem c10_witness :
    genChaincodeDeploymentSpec
        { sampleEnv with chaincodePackageExists := fun _ _ => (false, some ("probe io error")) }
        ("mycc") ("1.0") =
      (.ok sampleCDS, [.packageExists]) :=
  (c10_probe_error_discarded
      { sampleEnv with chaincodePackageExists := fun _ _ => (false, some ("probe io error")) }
      ("mycc") ("1.0")).2 ("probe io error") sampleCDS.ChaincodeSpec sampleCDS rfl rfl rfl

/-- C4: once ProcessProposal has been reached, a transport failure is the
only source of an endorse error; a nil proposal response or a nil inner
response is a protocol violation; a non-success status is a rejection
carrying the status code and the message; and a rejection is never equal to
a transport error. -/
theorem c4_reply_classification (env : Env) (i : Installer) (sp : SignedProposal)
    (c : EndorserClient) (cs : List EndorserClient)
    (hcl : i.EndorserClients = c :: cs) :
    (∀ e, c sp = .error e →
      (submitInstallProposal env i sp).1 = .fail (.endorseFailed e)) ∧
    (c sp = .ok none →
      (submitInstallProposal env i sp).1 = .fail .nilProposalResponse) ∧
    (c sp = .ok (some { Response := none }) →
      (submitInstallProposal env i sp).1 = .fail .nilResponse) ∧
    (∀ st msg p, st ≠ Status_SUCCESS →
      c sp = .ok (some (respOf st msg p)) →
      (submitInstallProposal env i sp).1 = .fail (.installRejected st msg)) ∧
    (∀ st msg e, Err.installRejected st msg ≠ Err.endorseFailed e) := by
  refine ⟨?_, ?_, ?_, ?_, ?_⟩
  · intro e hc
    simp [submitInstallProposal, hcl, hc]
  · intro hc
    simp [submitInstallProposal, hcl, hc]
  · intro hc
    simp [submitInstallProposal, hcl, hc]
  · intro st msg p hst hc
    simp [submitInstallProposal, hcl, hc, hst, respOf]
  · intro st msg e h
    exact Err.noConfusion h

/-- C4 witness: a concrete endpoint that rejects with status 500. -/
theorem c4_witness :
    (submitInstallProposal sampleEnv
        { EndorserClients := [rejectingClient], Input := goodLifecycleInput } [4]).1 =
      .fail (.installRejected 500 ("bad request")) :=
  (c4_reply_classification sampleEnv
      { EndorserClients := [rejectingClient], Input := goodLifecycleInput } [4]
      rejectingClient [] rfl).2.2.2.1 500 ("bad request") [] (by decide) rfl

/-- C5: the verdict payload is decoded only under the LIFECYCLE dialect and
only after a success status; a failing decode turns the success status into
an unmarshal error; under the LEGACY dialect a success status yields success
and the decoder is never invoked (nor is it on a non-success status). -/
theorem c5_payload_decode_lifecycle_only (env : Env) (i : Installer)
    (sp : SignedProposal) (c : EndorserClient) (cs : List EndorserClient)
    (hcl : i.EndorserClients = c :: cs) :
    (∀ m p e, i.Input.NewLifecycle = true →
      c sp = .ok (some (respOf Status_SUCCESS m p)) →
      env.unmarshalInstallChaincodeResult p = .error e →
      (submitInstallProposal env i sp).1 = .fail (.unmarshalResultFailed e) ∧
        Event.unmarshalICR ∈ (submitInstallProposal env i sp).2) ∧
    (∀ m p, i.Input.NewLifecycle = false →
      c sp = .ok (some (respOf Status_SUCCESS m p)) →
      submitInstallProposal env i sp = (.ok (), [.processProposal 0])) ∧
    (i.Input.NewLifecycle = false →
      Event.unmarshalICR ∉ (submitInstallProposal env i sp).2) ∧
    (∀ st m p, st ≠ Status_SUCCESS →
      c sp = .ok (some (respOf st m p)) →
      Event.unmarshalICR ∉ (submitInstallProposal env i sp).2) := by
  refine ⟨?_, ?_, ?_, ?_⟩
  · intro m p e hl hc hu
    constructor
    · simp [submitInstallProposal, hcl, hc, hl, hu, respOf]
    · simp [submitInstallProposal, hcl, hc, hl, hu, respOf]
  · intro m p hl hc
    simp [submitInstallProposal, hcl, hc, hl, respOf]
  · intro hl
    unfold submitInstallProposal
    rw [hcl]
    rcases hc : c sp with e | opr
    · simp [hc]
    · rcases opr with _ | pr
      · simp [hc]
      · rcases pr with ⟨_ | r⟩
        · simp [hc]
        · by_cases hs : r.Status ≠ Status_SUCCESS
          · simp [hc, hs]
          · have hs2 : r.Status = Status_SUCCESS := by
              by_contra hne
              exact hs hne
            simp [hc, hs2, hl]
  · intro st m p hst hc
    simp [submitInstallProposal, hcl, hc, hst, respOf]

/-- C5 witness: lifecycle dialect, success status, undecodable payload. -/
theorem c5_witness :
    (submitInstallProposal
        { sampleEnv with unmarshalInstallChaincodeResult := fun _ => .error ("bad payload") }
        goodLifecycleInstaller [4]).1 = .fail (.unmarshalResultFailed ("bad payload")) ∧
      Event.unmarshalICR ∈ (submitInstallProposal
        { sampleEnv with unmarshalInstallChaincodeResult := fun _ => .error ("bad payload") }
        goodLifecycleInstaller [4]).2 :=
  (c5_payload_decode_lifecycle_only
      { sampleEnv with unmarshalInstallChaincodeResult := fun _ => .error ("bad payload") }
      goodLifecycleInstaller [4] okClient [] rfl).1 "" [7] "bad payload" rfl rfl rfl

/-- C7: the resolver tries the descriptor shape first — a matching descriptor
returns at once, with no envelope unwrap attempted — then the envelope shape,
unwrapping the embedded descriptor; a failing unwrap step or a value of
neither shape (including typed nil pointers of either shape) fails with an
error of the invalid-package family. -/
theorem c7_shape_resolution_order (env : Env) (f : String) (bs : Bytes)
    (o : PackageObject)
    (hread : env.readFile f = .ok bs)
    (hpack : env.getCCPackage bs = .ok o) :
    (∀ c, o = .cds (some c) →
      getPackageFromFile env f = (.ok (o, c), [.readFile f])) ∧
    (∀ ev, o = .envelope (some ev) →
      (∀ e, env.extractSignedCCDepSpec ev = .error e →
        getPackageFromFile env f =
          (.fail (.extractSignedFailed e), [.readFile f, .extractSigned]) ∧
          IsInvalidPackageError (.extractSignedFailed e)) ∧
      (∀ sb e, env.extractSignedCCDepSpec ev = .ok sb →
        env.getChaincodeDeploymentSpecFromBytes sb = .error e →
        getPackageFromFile env f =
          (.fail (.extractCDSFailed e), [.readFile f, .extractSigned]) ∧
          IsInvalidPackageError (.extractCDSFailed e)) ∧
      (∀ sb c, env.extractSignedCCDepSpec ev = .ok sb →
        env.getChaincodeDeploymentSpecFromBytes sb = .ok c →
        getPackageFromFile env f = (.ok (o, c), [.readFile f, .extractSigned]))) ∧
    ((o = .cds none ∨ o = .envelope none ∨ o = .other) →
      getPackageFromFile env f = (.fail .invalidPackage, [.readFile f]) ∧
        IsInvalidPackageError .invalidPackage) := by
  refine ⟨?_, ?_, ?_⟩
  · intro c hc
    subst hc
    simp [getPackageFromFile, hread, hpack]
  · intro ev hev
    subst hev
    refine ⟨?_, ?_, ?_⟩
    · intro e he
      exact ⟨by simp [getPackageFromFile, hread, hpack, he], Or.inr (Or.inl ⟨e, rfl⟩)⟩
    · intro sb e hsb he
      exact ⟨by simp [getPackageFromFile, hread, hpack, hsb, he],
        Or.inr (Or.inr ⟨e, rfl⟩)⟩
    · intro sb c hsb hc
      simp [getPackageFromFile, hread, hpack, hsb, hc]
  · intro ho
    rcases ho with h | h | h <;> subst h <;>
      exact ⟨by simp [getPackageFromFile, hread, hpack], Or.inl rfl⟩

/-- C7 witness: an envelope-shaped package whose signed unwrap fails. -/
theorem c7_witness :
    getPackageFromFile
        { sampleEnv with
          getCCPackage := fun _ => .ok (.envelope (some { Payload := [0] }))
          extractSignedCCDepSpec := fun _ => .error ("bad envelope") } "pkg.bin" =
      (.fail (.extractSignedFailed ("bad envelope")),
        [.readFile ("pkg.bin"), .extractSigned]) ∧
      IsInvalidPackageError (.extractSignedFailed ("bad envelope")) :=
  ((c7_shape_resolution_order
      { sampleEnv with
        getCCPackage := fun _ => .ok (.envelope (some { Payload := [0] }))
        extractSignedCCDepSpec := fun _ => .error ("bad envelope") } "pkg.bin" [9, 9]
      (.envelope (some { Payload := [0] })) rfl rfl).2.1
    { Payload := [0] } rfl).1 "bad envelope" rfl

/-- A trace with no submission events contains no processProposal event. -/
theorem not_mem_of_processCount_zero (tr : List Event) (h : processCount tr = 0)
    (n : Nat) : Event.processProposal n ∉ tr := by
  intro hmem
  have hpos : 0 < tr.countP isProcessEvent :=
    List.countP_pos_iff.mpr ⟨Event.processProposal n, hmem, rfl⟩
  rw [processCount] at h
  omega

/-- The submitter records at most one submission, always to client 0. -/
theorem submit_trace_bound (env : Env) (i : Installer) (sp : SignedProposal) :
    processCount (submitInstallProposal env i sp).2 ≤ 1 ∧
      ∀ n, Event.processProposal n ∈ (submitInstallProposal env i sp).2 → n = 0 := by
  unfold submitInstallProposal
  rcases i.EndorserClients with _ | ⟨c, cs⟩
  · simp [processCount]
  · rcases hc : c sp with e | opr
    · simp [hc, processCount, isProcessEvent]
    · rcases opr with _ | pr
      · simp [hc, processCount, isProcessEvent]
      · rcases pr with ⟨_ | r⟩
        · simp [hc, processCount, isProcessEvent]
        · by_cases hs : r.Status ≠ Status_SUCCESS
          · simp [hc, hs, processCount, isProcessEvent]
          · by_cases hl : i.Input.NewLifecycle
            · rcases hu : env.unmarshalInstallChaincodeResult r.Payload with e | icr
              · simp [hc, hs, hl, hu, processCount, isProcessEvent]
              · simp [hc, hs, hl, hu, processCount, isProcessEvent]
            · simp [hc, hs, hl, processCount, isProcessEvent]

/-- With at least one endorser client, exactly one submission is recorded. -/
theorem submit_trace_one (env : Env) (inp : InstallInput) (c : EndorserClient)
    (cs : List EndorserClient) (sp : SignedProposal) :
    processCount
      (submitInstallProposal env { EndorserClients := c :: cs, Input := inp } sp).2 = 1 := by
  unfold submitInstallProposal
  rcases hc : c sp with e | opr
  · simp [hc, processCount, isProcessEvent]
  · rcases opr with _ | pr
    · simp [hc, processCount, isProcessEvent]
    · rcases pr with ⟨_ | r⟩
      · simp [hc, processCount, isProcessEvent]
      · by_cases hs : r.Status ≠ Status_SUCCESS
        · simp [hc, hs, processCount, isProcessEvent]
        · by_cases hl : inp.NewLifecycle
          · rcases hu : env.unmarshalInstallChaincodeResult r.Payload with e | icr
            · simp [hc, hs, hl, hu, processCount, isProcessEvent]
            · simp [hc, hs, hl, hu, processCount, isProcessEvent]
          · simp [hc, hs, hl, processCount, isProcessEvent]

/-- The package-file resolver never submits anything. -/
theorem getPackageFromFile_no_submission (env : Env) (f : String) :
    processCount (getPackageFromFile env f).2 = 0 := by
  unfold getPackageFromFile
  rcases h1 : env.readFile f with e | bs
  · simp [h1, processCount, isProcessEvent]
  · rcases h2 : env.getCCPackage bs with e | o
    · simp [h1, h2, processCount, isProcessEvent]
    · rcases o with c | ev | _
      · rcases c with _ | c
        · simp [h1, h2, processCount, isProcessEvent]
        · simp [h1, h2, processCount, isProcessEvent]
      · rcases ev with _ | ev
        · simp [h1, h2, processCount, isProcessEvent]
        · rcases h3 : env.extractSignedCCDepSpec ev with e | sb
          · simp [h1, h2, h3, processCount, isProcessEvent]
          · rcases h4 : env.getChaincodeDeploymentSpecFromBytes sb with e | cds
            · simp [h1, h2, h3, h4, processCount, isProcessEvent]
            · simp [h1, h2, h3, h4, processCount, isProcessEvent]
      · simp [h1, h2, processCount, isProcessEvent]

/-- The legacy synthesize path never submits anything. -/
theorem genChaincodeDeploymentSpec_no_submission (env : Env) (n v : String) :
    processCount (genChaincodeDeploymentSpec env n v).2 = 0 := by
  unfold genChaincodeDeploymentSpec
  by_cases hex : (env.chaincodePackageExists n v).1
  · simp [hex, processCount, isProcessEvent]
  · rcases h1 : env.getChaincodeSpec with e | spec
    · simp [hex, h1, processCount, isProcessEvent]
    · rcases h2 : env.getChaincodeDeploymentSpecBuild spec with e | cds
      · simp [hex, h1, h2, processCount, isProcessEvent]
      · simp [hex, h1, h2, processCount, isProcessEvent]

/-- The submission count distributes over trace concatenation. -/
theorem processCount_append (a b : List Event) :
    processCount (a ++ b) = processCount a + processCount b := by
  simp [processCount, List.countP_append]

/-- Legacy package resolution never submits anything. -/
theorem getLegacy_no_submission (env : Env) (i : Installer) :
    processCount (getLegacyChaincodePackageMessage env i).2 = 0 := by
  unfold getLegacyChaincodePackageMessage
  by_cases hf : i.Input.PackageFile = ""
  · by_cases hp : i.Input.Path = UndefinedParamValue ∨
        i.Input.Version = UndefinedParamValue ∨ i.Input.Name = UndefinedParamValue
    · simp [hf, hp, processCount]
    · have hg := genChaincodeDeploymentSpec_no_submission env i.Input.Name i.Input.Version
      rcases hgen : genChaincodeDeploymentSpec env i.Input.Name i.Input.Version with ⟨out, tr⟩
      simp only [hgen] at hg
      rcases out with a | e | m <;> simpa [hf, hp, hgen] using hg
  · have hg := getPackageFromFile_no_submission env i.Input.PackageFile
    rcases hgp : getPackageFromFile env i.Input.PackageFile with ⟨out, tr⟩
    simp only [hgp] at hg
    rcases out with ⟨msg, cds⟩ | e | m
    · by_cases hn : i.Input.Name ≠ "" ∧ i.Input.Name ≠ cds.ChaincodeSpec.ChaincodeId.Name
      · simpa [hf, hgp, hn] using hg
      · by_cases hw : i.Input.Version ≠ "" ∧
            i.Input.Version ≠ cds.ChaincodeSpec.ChaincodeId.Version
        · simpa [hf, hgp, hn, hw] using hg
        · simpa [hf, hgp, hn, hw] using hg
    · simpa [hf, hgp] using hg
    · simpa [hf, hgp] using hg

/-- Legacy proposal construction never submits anything. -/
theorem createLegacyInstallProposal_no_submission (env : Env) (msg : PackageObject) :
    processCount (createLegacyInstallProposal env msg).2 = 0 := by
  unfold createLegacyInstallProposal
  rcases h1 : env.serializeSigner with e | creator
  · simp [h1, processCount, isProcessEvent]
  · rcases h2 : env.createInstallProposalFromCDS msg creator with e | prop
    · simp [h1, h2, processCount, isProcessEvent]
    · simp [h1, h2, processCount, isProcessEvent]

/-- The lifecycle workflow submits at most once, always to client 0. -/
theorem install_trace_bound (env : Env) (i : Installer) :
    processCount (install env i).2 ≤ 1 ∧
      ∀ n, Event.processProposal n ∈ (install env i).2 → n = 0 := by
  unfold install
  rcases hv : validateInput i.Input with _ | e
  · rcases h1 : env.readFile i.Input.PackageFile with e | pkgBytes
    · simp [hv, h1, processCount, isProcessEvent]
    · rcases h2 : createNewLifecycleInstallProposal env i.Input.Name i.Input.Version
          pkgBytes (serializedOrNil env.serializeSigner) with p | e | m
      · rcases h3 : env.getSignedProposal p with e | sp
        · simp [hv, h1, h2, h3, processCount, isProcessEvent]
        · obtain ⟨hs1, hs2⟩ := submit_trace_bound env i sp
          simp only [hv, h1, h2, h3]
          refine ⟨?_, ?_⟩
          · rw [processCount_append]
            have h0 : processCount
                [Event.readFile i.Input.PackageFile, Event.serialize] = 0 := by
              simp [processCount, isProcessEvent]
            omega
          · intro n hmem
            rw [List.mem_append] at hmem
            rcases hmem with h | h
            · simp at h
            · exact hs2 n h
      · simp [hv, h1, h2, processCount, isProcessEvent]
      · simp [hv, h1, h2, processCount, isProcessEvent]
  · simp [hv, processCount, isProcessEvent]

/-- The legacy workflow submits at most once, always to client 0. -/
theorem installLegacy_trace_bound (env : Env) (i : Installer) :
    processCount (installLegacy env i).2 ≤ 1 ∧
      ∀ n, Event.processProposal n ∈ (installLegacy env i).2 → n = 0 := by
  unfold installLegacy
  have hres := getLegacy_no_submission env i
  rcases hgl : getLegacyChaincodePackageMessage env i with ⟨out, tr⟩
  simp only [hgl] at hres
  rcases out with msg | e | m
  · have hlp := createLegacyInstallProposal_no_submission env msg
    rcases hcp : createLegacyInstallProposal env msg with ⟨out2, tr2⟩
    simp only [hcp] at hlp
    rcases out2 with p | e | m
    · rcases h3 : env.getSignedProposal p with e | sp
      · simp only [hgl, hcp, h3]
        refine ⟨by rw [processCount_append]; omega, ?_⟩
        intro n hmem
        rw [List.mem_append] at hmem
        rcases hmem with h | h
        · exact absurd h (not_mem_of_processCount_zero tr hres n)
        · exact absurd h (not_mem_of_processCount_zero tr2 hlp n)
      · obtain ⟨hs1, hs2⟩ := submit_trace_bound env i sp
        simp only [hgl, hcp, h3]
        refine ⟨?_, ?_⟩
        · rw [processCount_append, processCount_append]
          omega
        · intro n hmem
          rw [List.mem_append] at hmem
          rcases hmem with h | h
          · rw [List.mem_append] at h
            rcases h with h | h
            · exact absurd h (not_mem_of_processCount_zero tr hres n)
            · exact absurd h (not_mem_of_processCount_zero tr2 hlp n)
          · exact hs2 n h
    · simp only [hgl, hcp]
      refine ⟨by rw [processCount_append]; omega, ?_⟩
      intro n hmem
      rw [List.mem_append] at hmem
      rcases hmem with h | h
      · exact absurd h (not_mem_of_processCount_zero tr hres n)
      · exact absurd h (not_mem_of_processCount_zero tr2 hlp n)
    · simp only [hgl, hcp]
      refine ⟨by rw [processCount_append]; omega, ?_⟩
      intro n hmem
      rw [List.mem_append] at hmem
      rcases hmem with h | h
      · exact absurd h (not_mem_of_processCount_zero tr hres n)
      · exact absurd h (not_mem_of_processCount_zero tr2 hlp n)
  · simp only [hgl]
    exact ⟨by omega, fun n h => absurd h (not_mem_of_processCount_zero tr hres n)⟩
  · simp only [hgl]
    exact ⟨by omega, fun n h => absurd h (not_mem_of_processCount_zero tr hres n)⟩

/-- C8: per invocation, in both dialects, the workflow records at most one
submission, every submission goes to the first configured endorser client
(index 0), and once the submitter runs with at least one client configured
it submits exactly once — no retry, fan-out, or quorum. -/
theorem c8_single_submission :
    (∀ (env : Env) (i : Installer), processCount (installChaincode env i).2 ≤ 1) ∧
    (∀ (env : Env) (i : Installer) (n : Nat),
      Event.processProposal n ∈ (installChaincode env i).2 → n = 0) ∧
    (∀ (env : Env) (inp : InstallInput) (c : EndorserClient)
        (cs : List EndorserClient) (sp : SignedProposal),
      processCount
        (submitInstallProposal env { EndorserClients := c :: cs, Input := inp } sp).2 = 1) := by
  refine ⟨?_, ?_, submit_trace_one⟩
  · intro env i
    unfold installChaincode
    by_cases hl : i.Input.NewLifecycle
    · simpa [hl] using (install_trace_bound env i).1
    · simpa [hl] using (installLegacy_trace_bound env i).1
  · intro env i n h
    unfold installChaincode at h
    by_cases hl : i.Input.NewLifecycle
    · rw [if_pos hl] at h
      exact (install_trace_bound env i).2 n h
    · rw [if_neg hl] at h
      exact (installLegacy_trace_bound env i).2 n h

/-- C8 witness: a concrete successful run submits once, to client 0. -/
theorem c8_witness :
    processCount (installChaincode sampleEnv goodLifecycleInstaller).2 ≤ 1 ∧
      (0 : Nat) = 0 ∧
      processCount
        (submitInstallProposal sampleEnv
          { EndorserClients := [okClient], Input := goodLifecycleInput } [4]).2 = 1 :=
  ⟨c8_single_submission.1 sampleEnv goodLifecycleInstaller,
    c8_single_submission.2.1 sampleEnv goodLifecycleInstaller 0 (by decide),
    c8_single_submission.2.2 sampleEnv goodLifecycleInput okClient [] [4]⟩

end Fabric
